import Mathlib

/-!
A shallow embedding of the scope-isolation engine of `one-patch`
(`src/one_patch/one_patch_itself.py`), together with a model of the platform
patching substrate (`unittest.mock._patch`, CPython 3.11) that the engine
drives.  Dotted identifier paths are represented throughout by their list of
`.`-separated segments, so `"FirstClass.__init__"` is `["FirstClass",
"__init__"]`; a bare name is a one-element list.
-/

namespace OnePatchModel

/-- Identifier atom: one segment of a dotted path. -/
abbrev Ident := String

/-- A dotted identifier path, as its list of `.`-separated segments. -/
abbrev IdentifierPath := List Ident

/-- Root of a mock tree: either the `autospec=True` tree created from the
testing module in `OnePatch.__enter__` (`patch.object(fake_parent_module,
'tm', autospec=True)`), or a plain `MagicMock()` created afresh
(`MagicMock()` in `_get_args_and_callable`, or the default mock installed by
`patch.object(..., create=True)` in `_patch_include_set`). -/
inductive MockRoot where
  | autoSpec (n : Nat)
  | plain (n : Nat)
deriving DecidableEq

/-- Introspection facts of a real Python object that the engine consults:
`callable(o)`, `inspect.isclass(o)`, `issubclass(o, Exception)` and
`o.__qualname__` (absent on objects without the attribute). -/
structure Flags where
  isCallable : Bool := false
  isClass : Bool := false
  isExcSub : Bool := false
  qualname : Option IdentifierPath := none
deriving DecidableEq

/-- A Python value: a real object (a numeric identity plus its introspection
facts) or a mock node, identified by its mock-tree root and the attribute
path from that root.  MagicMock children are memoized by attribute name, so
two accesses of the same attribute return the same node; equality of mock
nodes therefore coincides with Python `==` (identity) on mocks. -/
inductive Val where
  | obj (n : Nat) (fl : Flags)
  | mock (r : MockRoot) (path : List Ident)
deriving DecidableEq

/-- `isinstance(v, Mock)`. -/
def Val.isMockV : Val → Bool
  | .obj _ _ => false
  | .mock _ _ => true

/-- `callable(v)`: every mock is callable; a real object is callable when
its flags say so. -/
def Val.isCallableV : Val → Bool
  | .obj _ fl => fl.isCallable
  | .mock _ _ => true

/-- `inspect.isclass(v) and issubclass(v, Exception)` for a real object. -/
def Val.isExceptionClass : Val → Bool
  | .obj _ fl => fl.isClass && fl.isExcSub
  | .mock _ _ => false

/-- `v.__qualname__`, as a segment list. -/
def Val.qualnameOf : Val → Option IdentifierPath
  | .obj _ fl => fl.qualname
  | .mock _ _ => none

/-- An attribute owner: the testing module or another real object
(`real n`), a node of a mock tree, or the throwaway `FakeModule` instance
holding the `tm` attribute in `OnePatch.__enter__`. -/
inductive OId where
  | real (n : Nat)
  | mockNode (r : MockRoot) (path : List Ident)
  | fakeHolder
deriving DecidableEq

/-- The owner a value acts as when attributes are read from or patched on
it. -/
def Val.toOId : Val → OId
  | .obj n _ => .real n
  | .mock r p => .mockNode r p

/-- The observable attribute state: `getattr` as a map from (owner,
attribute name) to the current value, `none` meaning the attribute does not
exist. -/
abbrev Heap := OId × String → Option Val

/-- Errors surfaced by the model.  `unstartedExit` stands for the exception
CPython 3.11's `_patch.__exit__` raises when invoked on a patcher that is
not started (its `is_local` / `temp_original` / `target` attributes were
deleted by the first `__exit__`, so the second raises `AttributeError`). -/
inductive Err where
  | attributeError
  | valueError
  | noQualname
  | unstartedExit
deriving DecidableEq

/-- A `unittest.mock._patch` object created by `patch.object` after its
`__enter__` ran: the patched owner and attribute name, the replacement
value, the `create` flag, `temp_original` (`none` when the attribute did not
exist, i.e. the `DEFAULT` sentinel), and whether the patcher is currently
started. -/
structure Patcher where
  owner : OId
  attrName : String
  newVal : Val
  create : Bool
  temp : Option Val
  isStarted : Bool
deriving DecidableEq

/-- The mutable state of one `OnePatch` session: `self._patchers` (in
application order, most recent last), the attribute heap, and a counter
supplying fresh mock identities. -/
structure SessionS where
  patchers : List Patcher
  heap : Heap
  counter : Nat

/-- `patch.object(owner, attribute, newVal, create=create).__enter__()`:
reads `temp_original`; raises `AttributeError` when the attribute is missing
and `create` is false (`_patch.get_original`); otherwise installs the new
value and records the started patcher at the end of `self._patchers`. -/
def applyPatcher (S : SessionS) (owner : OId) (attrName : String)
    (newVal : Val) (create : Bool) : SessionS × Except Err Unit :=
  match S.heap (owner, attrName), create with
  | none, false => (S, .error .attributeError)
  | temp, _ =>
      ({ patchers := S.patchers ++ [⟨owner, attrName, newVal, create, temp, true⟩],
         heap := Function.update S.heap (owner, attrName) (some newVal),
         counter := S.counter }, .ok ())

/-- A request to apply one patch (used to quantify over the substitutions a
session applies). -/
structure PatchSpec where
  owner : OId
  attrName : String
  newVal : Val
  create : Bool

/-- Apply a sequence of patches in order, as the engine does during scope
entry (each phase of `__enter__` pushes its patchers onto the same list). -/
def applyPatchersFrom (S : SessionS) : List PatchSpec → Except Err SessionS
  | [] => .ok S
  | sp :: rest =>
      match applyPatcher S sp.owner sp.attrName sp.newVal sp.create with
      | (_, .error e) => .error e
      | (S', .ok _) => applyPatchersFrom S' rest

/-- A patcher after its `__exit__` ran (no longer started). -/
def stopPatcher (p : Patcher) : Patcher := { p with isStarted := false }

/-- `_patch.__exit__(*exc_info)` of CPython 3.11: if the patcher is started,
restore `temp_original` (`setattr` when it existed, `delattr` when it was
the `DEFAULT` sentinel) and clear the started state; a second call finds the
enter-time attributes deleted and raises.  The `exc_info` argument is
ignored by the restoration logic. -/
def exitOne (_excInfo : Option Nat) (p : Patcher) (h : Heap) :
    Except Err (Patcher × Heap) :=
  if p.isStarted then
    .ok (stopPatcher p, Function.update h (p.owner, p.attrName) p.temp)
  else
    .error .unstartedExit

/-- Run `patcher.__exit__` over a list of patchers in the given order,
stopping at the first failure (an exception propagates out of the `for`
loop in `OnePatch.__exit__`). -/
def exitList (excInfo : Option Nat) : List Patcher → Heap →
    Except Err (List Patcher × Heap)
  | [], h => .ok ([], h)
  | p :: rest, h =>
      match exitOne excInfo p h with
      | .error e => .error e
      | .ok (p', h') =>
          match exitList excInfo rest h' with
          | .error e => .error e
          | .ok (ps', h'') => .ok (p' :: ps', h'')

/-- `OnePatch.__exit__`: `for patcher in reversed(self._patchers):
patcher.__exit__(exc_type, exc_val, exc_tb)`.  Returns the patcher list (in
its original order, with the processed patchers stopped) and the resulting
heap. -/
def onePatchExit (excInfo : Option Nat) (ps : List Patcher) (h : Heap) :
    Except Err (List Patcher × Heap) :=
  match exitList excInfo ps.reverse h with
  | .error e => .error e
  | .ok (l, h') => .ok (l.reverse, h')

/-! ### Lemmas about the patcher stack -/

/-- `applyPatcher` on a present attribute (or with `create`) appends one
started patcher whose `temp_original` is the current heap value, and updates
the heap. -/
theorem applyPatcher_spec (S : SessionS) (o : OId) (a : String) (v : Val)
    (c : Bool) (h : ¬(S.heap (o, a) = none ∧ c = false)) :
    applyPatcher S o a v c =
      ({ patchers := S.patchers ++ [⟨o, a, v, c, S.heap (o, a), true⟩],
         heap := Function.update S.heap (o, a) (some v),
         counter := S.counter }, .ok ()) := by
  unfold applyPatcher
  cases hv : S.heap (o, a) with
  | some w => rfl
  | none =>
    cases hc : c with
    | false => exact absurd ⟨hv, hc⟩ h
    | true => rfl

/-- `applyPatcher` on a missing attribute without `create` raises
`AttributeError` and leaves the session unchanged. -/
theorem applyPatcher_fail (S : SessionS) (o : OId) (a : String) (v : Val)
    (h1 : S.heap (o, a) = none) :
    applyPatcher S o a v false = (S, .error .attributeError) := by
  unfold applyPatcher
  rw [h1]

/-- Sequencing of `exitList` over an appended list. -/
theorem exitList_append (excInfo : Option Nat) (l₁ l₂ : List Patcher)
    (h : Heap) :
    exitList excInfo (l₁ ++ l₂) h =
      match exitList excInfo l₁ h with
      | .error e => .error e
      | .ok (a, h') =>
          match exitList excInfo l₂ h' with
          | .error e => .error e
          | .ok (b, h'') => .ok (a ++ b, h'') := by
  induction l₁ generalizing h with
  | nil =>
    cases hx : exitList excInfo l₂ h with
    | error e => simp [exitList, hx]
    | ok r => obtain ⟨b, h''⟩ := r; simp [exitList, hx]
  | cons p t ih =>
    simp only [List.cons_append, exitList, List.append_eq]
    cases hp : exitOne excInfo p h with
    | error e => rfl
    | ok r =>
      obtain ⟨p', h'⟩ := r
      dsimp only
      rw [ih h']
      cases ht : exitList excInfo t h' with
      | error e => rfl
      | ok r2 =>
        obtain ⟨a, h''⟩ := r2
        dsimp only
        cases h2 : exitList excInfo l₂ h'' with
        | error e => rfl
        | ok r3 => obtain ⟨b, h3⟩ := r3; simp

/-- Undo-stack induction: if a session applied a sequence of substitutions
in order, then running the per-patcher exits over the *reversed* list of
recorded patchers succeeds, stops every patcher, and returns the attribute
heap to exactly its starting state. -/
theorem applyFrom_exit_restores (specs : List PatchSpec) :
    ∀ S0 S1 : SessionS, applyPatchersFrom S0 specs = .ok S1 →
      ∃ newPs : List Patcher,
        S1.patchers = S0.patchers ++ newPs ∧
        ∀ excInfo, exitList excInfo newPs.reverse S1.heap =
          .ok ((newPs.map stopPatcher).reverse, S0.heap) := by
  induction specs with
  | nil =>
    intro S0 S1 happ
    simp only [applyPatchersFrom] at happ
    obtain rfl : S0 = S1 := by injection happ
    exact ⟨[], by simp, fun e => by simp [exitList]⟩
  | cons sp rest ih =>
    intro S0 S1 happ
    simp only [applyPatchersFrom] at happ
    by_cases hbad : S0.heap (sp.owner, sp.attrName) = none ∧ sp.create = false
    · obtain ⟨h1, h2⟩ := hbad
      rw [h2, applyPatcher_fail _ _ _ _ h1] at happ
      dsimp only at happ
      simp at happ
    · rw [applyPatcher_spec _ _ _ _ _ hbad] at happ
      dsimp only at happ
      obtain ⟨newPs', hps, hexit⟩ := ih _ S1 happ
      refine ⟨⟨sp.owner, sp.attrName, sp.newVal, sp.create,
                S0.heap (sp.owner, sp.attrName), true⟩ :: newPs', ?_, ?_⟩
      · rw [hps]; simp
      · intro e
        have hlast : exitList e
            [⟨sp.owner, sp.attrName, sp.newVal, sp.create,
              S0.heap (sp.owner, sp.attrName), true⟩]
            (Function.update S0.heap (sp.owner, sp.attrName)
              (some sp.newVal)) =
            .ok ([stopPatcher ⟨sp.owner, sp.attrName, sp.newVal, sp.create,
              S0.heap (sp.owner, sp.attrName), true⟩], S0.heap) := by
          simp [exitList, exitOne, Function.update_idem,
            Function.update_eq_self]
        rw [List.reverse_cons, exitList_append e _ _ _, hexit e]
        dsimp only
        rw [hlast]
        simp

/-! ### Claim C1: reverse-order restoration on scope exit -/

/-- C1.  For every isolation session and every sequence of substitutions
applied during scope entry (any number `N` of them), `OnePatch.__exit__`
undoes the substitutions one patcher at a time in exactly the reverse order
of their application (it iterates `reversed(self._patchers)`), and after it
runs every attribute touched by the session carries exactly its
pre-isolation value: the resulting heap is the initial heap, on both normal
and exceptional exit (`excInfo` is arbitrary and ignored by restoration). -/
theorem exit_restores_in_reverse (specs : List PatchSpec) (h0 : Heap)
    (c0 : Nat) (S1 : SessionS) (excInfo : Option Nat)
    (happly : applyPatchersFrom ⟨[], h0, c0⟩ specs = .ok S1) :
    onePatchExit excInfo S1.patchers S1.heap =
      .ok (S1.patchers.map stopPatcher, h0) := by
  obtain ⟨newPs, hps, hexit⟩ := applyFrom_exit_restores specs ⟨[], h0, c0⟩ S1 happly
  dsimp only at hps
  rw [List.nil_append] at hps
  unfold onePatchExit
  rw [hps, hexit excInfo]
  simp

/-- A session start state used by the concrete demonstrations below. -/
def demoHeap0 : Heap := fun _ => none

/-- Two concrete substitutions, applied with `create=True` so that the
attributes are created on an initially empty owner. -/
def demoSpecs : List PatchSpec :=
  [⟨.real 0, "a", .mock (.plain 0) [], true⟩,
   ⟨.real 0, "b", .obj 1 {}, true⟩]

/-- The session state after applying `demoSpecs` to `demoHeap0`. -/
def demoSession1 : SessionS :=
  ⟨[⟨.real 0, "a", .mock (.plain 0) [], true, none, true⟩,
    ⟨.real 0, "b", .obj 1 {}, true, none, true⟩],
   Function.update
     (Function.update demoHeap0 (.real 0, "a") (some (.mock (.plain 0) [])))
     (.real 0, "b") (some (.obj 1 {})),
   7⟩

/-- Witness for C1 at a concrete two-substitution session. -/
theorem exit_restores_in_reverse_witness :
    onePatchExit none demoSession1.patchers demoSession1.heap =
      .ok (demoSession1.patchers.map stopPatcher, demoHeap0) :=
  exit_restores_in_reverse demoSpecs demoHeap0 7 demoSession1 none rfl

/-! ### Claim C2: double teardown -/

/-- First projection of a teardown result (the patcher list as left by
`OnePatch.__exit__`; `self._patchers` is never cleared by the code). -/
def exitedPatchers (r : Except Err (List Patcher × Heap)) : List Patcher :=
  match r with
  | .ok (l, _) => l
  | .error _ => []

/-- Heap left by a teardown result. -/
def exitedHeap (r : Except Err (List Patcher × Heap)) : Heap :=
  match r with
  | .ok (_, h) => h
  | .error _ => fun _ => none

/-- Whether a teardown result raised. -/
def isOkResult (r : Except Err (List Patcher × Heap)) : Bool :=
  match r with
  | .ok _ => true
  | .error _ => false

/-- Counterexample to C2 as stated.  After a completed two-substitution
session exits once (successfully), invoking `OnePatch.__exit__` a second
time is *not* a no-op: `self._patchers` still holds the same patchers, all
now stopped, and the first `patcher.__exit__` call raises (CPython 3.11
deletes `is_local`/`temp_original`/`target` on the first exit, so the second
raises `AttributeError`).  The error is raised before any attribute is
modified, so no declaration changes — but the call does raise. -/
theorem double_exit_raises_cex :
    isOkResult (onePatchExit none demoSession1.patchers demoSession1.heap)
      = true ∧
    onePatchExit none
      (exitedPatchers (onePatchExit none demoSession1.patchers demoSession1.heap))
      (exitedHeap (onePatchExit none demoSession1.patchers demoSession1.heap))
      = .error .unstartedExit :=
  ⟨rfl, rfl⟩

/-- C2 amended: a second invocation of `OnePatch.__exit__` after a completed
teardown re-runs `patcher.__exit__` on the same (never cleared) patcher
list; every patcher is already stopped, so the very first call of the second
pass raises and the heap is not touched — the second invocation raises
instead of being a silent no-op. -/
theorem second_exit_raises (ps : List Patcher) (h : Heap)
    (excInfo : Option Nat) (hne : ps ≠ []) :
    onePatchExit excInfo (ps.map stopPatcher) h = .error .unstartedExit := by
  have hne' : (ps.map stopPatcher).reverse ≠ [] := by
    simp [hne]
  obtain ⟨q, t, hqt⟩ := List.exists_cons_of_ne_nil hne'
  have hq : q.isStarted = false := by
    have hmem : q ∈ (ps.map stopPatcher).reverse := by
      rw [hqt]; exact List.mem_cons_self q t
    rw [List.mem_reverse] at hmem
    obtain ⟨p0, _, rfl⟩ := List.mem_map.mp hmem
    rfl
  unfold onePatchExit
  rw [hqt]
  simp [exitList, exitOne, hq]

/-- Witness for the amended C2 at the concrete demonstration session. -/
theorem second_exit_raises_witness :
    onePatchExit none (demoSession1.patchers.map stopPatcher) demoHeap0 =
      .error .unstartedExit :=
  second_exit_raises demoSession1.patchers demoHeap0 none (by decide)

/-! ### The testing-module world and the autospec mock tree -/

/-- What `inspect.signature` and `inspect.ismethod` report about a callable:
whether it is a bound (instance or class) method, its signature's parameter
names in declaration order (for a bound method, Python's `signature` already
excludes the implicitly bound first parameter), and the object
`getattr(func, '__func__')` resolves to. -/
structure FuncSig where
  isMethod : Bool
  params : List Ident
  underlying : Val
deriving DecidableEq

/-- The static structure of the real declarations: the attribute dictionary
of each real object (object `0` is the testing module; dictionaries are in
insertion order, as Python dicts are), and the signature facts of each real
callable. -/
structure RealWorld where
  attrsOf : Nat → List (Ident × Val)
  sigOf : Nat → FuncSig

/-- The testing module as a value (`sys.modules[func.__module__]`). -/
def tmVal : Val := .obj 0 {}

/-- Dictionary lookup in a real object's attribute dictionary. -/
def lookupAttr (w : RealWorld) (n : Nat) (a : Ident) : Option Val :=
  (w.attrsOf n).lookup a

/-- Resolve a path through the *real* (unpatched) structure, starting from
a value. -/
def resolveFrom (w : RealWorld) : Val → List Ident → Option Val
  | v, [] => some v
  | .obj n _, a :: rest =>
      match lookupAttr w n a with
      | some v' => resolveFrom w v' rest
      | none => none
  | .mock _ _, _ :: _ => none

/-- Whether the real object that specs the autospec mock node at `p` (under
the testing module) has an attribute `a`: accessing a missing attribute on
an autospec mock raises instead of fabricating a child. -/
def specHasAttr (w : RealWorld) (p : List Ident) (a : Ident) : Bool :=
  match resolveFrom w tmVal p with
  | some (.obj n _) => (lookupAttr w n a).isSome
  | _ => false

/-- The observable attribute state before the session starts: real objects
expose their dictionaries; the autospec tree rooted at creation id
`autoRoot` exposes memoized children exactly for the attributes its spec
object has; plain `MagicMock()`s auto-create a memoized child for every
name; the `FakeModule` instance holds the testing module under `tm`. -/
def initialHeap (w : RealWorld) (autoRoot : Nat) : Heap := fun ka =>
  match ka with
  | (.real n, a) => lookupAttr w n a
  | (.mockNode (.plain k) p, a) => some (.mock (.plain k) (p ++ [a]))
  | (.mockNode (.autoSpec k) p, a) =>
      if k = autoRoot then
        if specHasAttr w p a then some (.mock (.autoSpec k) (p ++ [a]))
        else none
      else none
  | (.fakeHolder, a) => if a = "tm" then some tmVal else none

/-- `getattr(v, a)` against the current heap. -/
def getattrH (h : Heap) (v : Val) (a : Ident) : Option Val := h (v.toOId, a)

/-- `OnePatch._getattr_by_path`: fold `getattr` over the path segments. -/
def getattrByPath (h : Heap) : Val → List Ident → Option Val
  | v, [] => some v
  | v, a :: rest =>
      match getattrH h v a with
      | some v' => getattrByPath h v' rest
      | none => none

/-- `OnePatch.get_patching_list`: walk
`test_method.__qualname__.split('.')[:-1]` from the mocked module,
collecting the mock reached at each level. -/
def getPatchingList (h : Heap) : Val → List Ident → Option (List Val)
  | _, [] => some []
  | cur, n :: rest =>
      match getattrH h cur n with
      | some nxt => (getPatchingList h nxt rest).map (nxt :: ·)
      | none => none

/-- `getattr(mock, '_mock_name')`: the attribute name under which a mock
child was created (`none` for a real object or a root mock). -/
def mockNameOf : Val → Option Ident
  | .mock _ p => p.getLast?
  | .obj _ _ => none

/-- Signature facts of a value (used where the engine inspects a callable;
mocks never reach these inspections in the modeled runs). -/
def sigOfVal (w : RealWorld) : Val → FuncSig
  | .obj n _ => w.sigOf n
  | .mock _ _ => ⟨false, [], tmVal⟩

/-! ### `OnePatch._get_args_and_callable` (argument synthesis) -/

/-- `OnePatch.is_class_method`: `inspect.ismethod(func)` (true for bound
instance methods and for classmethods accessed on the class). -/
def isClassMethod (sig : FuncSig) : Bool := sig.isMethod

/-- The mock argument container: names in registration order paired with
their values (positional index = list position, name lookup = the
registered name). -/
abbrev ArgsList := List (Ident × Val)

/-- One fresh `MagicMock()` per parameter, threading the freshness
counter. -/
def synthFreshArgs : List Ident → Nat → ArgsList × Nat
  | [], c => ([], c)
  | p :: rest, c =>
      ((p, .mock (.plain c) []) :: (synthFreshArgs rest (c + 1)).1,
       (synthFreshArgs rest (c + 1)).2)

/-- The non-`ismethod` branch of `_get_args_and_callable`: each parameter
gets a fresh `MagicMock()`, except that when the patching list is non-empty
a parameter literally named `self` gets `patching_list[-1]`. -/
def synthPlainArgs (lastM : Option Val) : List Ident → Nat → ArgsList × Nat
  | [], c => ([], c)
  | p :: rest, c =>
      match lastM with
      | some m =>
          if p = "self" then
            ((p, m) :: (synthPlainArgs lastM rest c).1,
             (synthPlainArgs lastM rest c).2)
          else
            ((p, .mock (.plain c) []) :: (synthPlainArgs lastM rest (c + 1)).1,
             (synthPlainArgs lastM rest (c + 1)).2)
      | none =>
          ((p, .mock (.plain c) []) :: (synthPlainArgs lastM rest (c + 1)).1,
           (synthPlainArgs lastM rest (c + 1)).2)

/-- `CallableDTO`: the synthesized argument container and the callable to
invoke against it. -/
structure CallableDTOm where
  args : ArgsList
  c : Val
deriving DecidableEq

/-- `OnePatch._get_args_and_callable`.  For `inspect.ismethod` callables:
`c = func.__func__`, a first argument named `cls` bound to
`patching_list[-1]` (when the patching list is non-empty), then one fresh
mock per signature parameter.  Otherwise `c = func` and the parameters are
synthesized by `synthPlainArgs`. -/
def getArgsAndCallable (funcV : Val) (sig : FuncSig)
    (patchingList : List Val) (c0 : Nat) : CallableDTOm × Nat :=
  if isClassMethod sig then
    (⟨(match patchingList.getLast? with
       | some m => [("cls", m)]
       | none => []) ++ (synthFreshArgs sig.params c0).1,
      sig.underlying⟩,
     (synthFreshArgs sig.params c0).2)
  else
    (⟨(synthPlainArgs patchingList.getLast? sig.params c0).1, funcV⟩,
     (synthPlainArgs patchingList.getLast? sig.params c0).2)

/-! ### `OnePatch._init_exclusions` (exclusion classification) -/

/-- A caller-supplied exclusion selector: an identifier/path string (as its
segment list) or a direct object reference. -/
inductive Sel where
  | str (p : IdentifierPath)
  | objRef (v : Val)

/-- The derived exclusion sets of `OnePatch._init_exclusions`. -/
structure ExclParts where
  identifierSet : List Ident := []
  pathSet : List IdentifierPath := []
  firstPathIdents : List Ident := []
  objPaths : List IdentifierPath := []
  firstObjPathIdents : List Ident := []
deriving DecidableEq

/-- `path.split('.')[0]`. -/
def pathHead (p : IdentifierPath) : Ident := p.headD ""

/-- The string selectors of an exclusion set. -/
def strSelectors (sels : List Sel) : List IdentifierPath :=
  sels.filterMap fun s =>
    match s with
    | .str p => some p
    | .objRef _ => none

/-- The object selectors of an exclusion set. -/
def objSelectors (sels : List Sel) : List Val :=
  sels.filterMap fun s =>
    match s with
    | .str _ => none
    | .objRef v => some v

/-- `OnePatch._get_exclude_object_path` over a list: each excluded object's
`__qualname__`, failing with `ValueError` when the attribute is absent. -/
def objPathsOf : List Val → Except Err (List IdentifierPath)
  | [] => .ok []
  | v :: rest =>
      match v.qualnameOf with
      | none => .error .noQualname
      | some q =>
          match objPathsOf rest with
          | .error e => .error e
          | .ok qs => .ok (q :: qs)

/-- `OnePatch._init_exclusions`: classify string selectors by whether they
contain a `.` (at least two segments), record first segments of dotted
paths, resolve object selectors to their `__qualname__` paths and record
their first segments. -/
def initExclusions (sels : List Sel) : Except Err ExclParts :=
  match objPathsOf (objSelectors sels) with
  | .error e => .error e
  | .ok qs =>
      let strs := strSelectors sels
      .ok { identifierSet := (strs.filter (fun p => p.length < 2)).map pathHead,
            pathSet := strs.filter (fun p => 2 ≤ p.length),
            firstPathIdents :=
              (strs.filter (fun p => 2 ≤ p.length)).map pathHead,
            objPaths := qs,
            firstObjPathIdents := qs.map pathHead }

/-! ### `OnePatch._patch_module_identifiers` (blanket replacement) -/

/-- `identifier.startswith('__')`, computed on the character list. -/
def isDunder (s : String) : Bool := s.data.take 2 == ['_', '_']

/-- `OnePatch._patch_module_identifiers`: iterate a snapshot of
`testing_module.__dict__`; skip excluded names, non-included dunder names,
the unit under test itself, values that are already mocks, exception
classes, and the name of the first chain mock; patch everything else on the
testing module with the corresponding attribute of the mocked module. -/
def patchModuleIdentifiers (excl : ExclParts)
    (includeSet : List IdentifierPath) (funcV : Val) (patchingList : List Val)
    (mockedModule : Val) :
    List (Ident × Val) → SessionS → SessionS × Except Err Unit
  | [], S => (S, .ok ())
  | (ident, value) :: rest, S =>
      if ident ∈ excl.identifierSet ∨ ident ∈ excl.firstPathIdents ∨
          ident ∈ excl.firstObjPathIdents then
        patchModuleIdentifiers excl includeSet funcV patchingList mockedModule rest S
      else if isDunder ident = true ∧ [ident] ∉ includeSet then
        patchModuleIdentifiers excl includeSet funcV patchingList mockedModule rest S
      else if value = funcV then
        patchModuleIdentifiers excl includeSet funcV patchingList mockedModule rest S
      else if value.isMockV = true then
        patchModuleIdentifiers excl includeSet funcV patchingList mockedModule rest S
      else if value.isExceptionClass = true then
        patchModuleIdentifiers excl includeSet funcV patchingList mockedModule rest S
      else if (patchingList.head?.bind mockNameOf) = some ident then
        patchModuleIdentifiers excl includeSet funcV patchingList mockedModule rest S
      else
        match getattrH S.heap mockedModule ident with
        | none => (S, .error .attributeError)
        | some mval =>
            match applyPatcher S (.real 0) ident mval false with
            | (S', .error e) => (S', .error e)
            | (S', .ok _) =>
                patchModuleIdentifiers excl includeSet funcV patchingList
                  mockedModule rest S'

/-! ### `OnePatch._patch_include_set` -/

/-- Whether an include selector is covered by one of the exclusion sets
(`exclude_set` has more priority than `include_set`). -/
def exclMatchesInclude (excl : ExclParts) (p : IdentifierPath) : Bool :=
  (match p with
   | [a] => decide (a ∈ excl.identifierSet)
   | _ => false) ||
  decide (p ∈ excl.pathSet) || decide (p ∈ excl.objPaths)

/-- `include_set - exclude_set` as computed in `_patch_include_set`. -/
def includeMinusExcl (excl : ExclParts)
    (includeSet : List IdentifierPath) : List IdentifierPath :=
  includeSet.filter (fun p => !(exclMatchesInclude excl p))

/-- The loop body of `_patch_include_set`: for each remaining selector,
walk to its parent, skip it when the current value is already a mock
(`isinstance(getattr(parent, last, None), Mock)`), otherwise install a
fresh default mock with `patch.object(parent, last, create=True)`. -/
def patchIncludeGo : List IdentifierPath → SessionS → SessionS × Except Err Unit
  | [], S => (S, .ok ())
  | sel :: rest, S =>
      match getattrByPath S.heap tmVal sel.dropLast with
      | none => (S, .error .attributeError)
      | some parent =>
          let lastSeg := sel.getLastD ""
          if (match S.heap (parent.toOId, lastSeg) with
              | some v => v.isMockV
              | none => false) = true then
            patchIncludeGo rest S
          else
            let freshM : Val := .mock (.plain S.counter) []
            match applyPatcher { S with counter := S.counter + 1 }
                parent.toOId lastSeg freshM true with
            | (S', .error e) => (S', .error e)
            | (S', .ok _) => patchIncludeGo rest S'

/-- `OnePatch._patch_include_set`. -/
def patchIncludeSet (excl : ExclParts) (includeSet : List IdentifierPath)
    (S : SessionS) : SessionS × Except Err Unit :=
  patchIncludeGo (includeMinusExcl excl includeSet) S

/-! ### The exclusion walk of `OnePatch.__enter__` (Phase 3) -/

/-- A key of the `exclusions` dictionary: the original object reference or
the dotted-path string. -/
inductive EKey where
  | objK (v : Val)
  | pathK (p : IdentifierPath)
deriving DecidableEq

/-- An entry of the `exclusions` dictionary: `CallableDTO` for excluded
callables, `NotCallableDTO` for excluded non-callables. -/
inductive ExclEntry where
  | callableE (dto : CallableDTOm)
  | notCallableE (o : Val)
deriving DecidableEq

/-- The `exclusions` dictionary, as an insertion-ordered association list
(later assignments win on lookup, as in a Python dict). -/
abbrev Exclusions := List (EKey × ExclEntry)

/-- `exclusions[k] = v`. -/
def dictSet (l : Exclusions) (k : EKey) (v : ExclEntry) : Exclusions :=
  l ++ [(k, v)]

/-- `exclusions[k]` (last assignment wins). -/
def dictGet (l : Exclusions) (k : EKey) : Option ExclEntry :=
  (l.reverse.find? (fun e => e.1 == k)).map (·.2)

/-- The per-segment walk of one exclusion path (`for idx,
exclude_identifier in enumerate(exclude_identifiers)` in
`OnePatch.__enter__`), starting from the mocked module.  On-chain segments
(`patching_list[idx] == current_object`) are passed over; other non-final
segments are re-patched with their *current* value; the final segment gets
the original `exclude_object` (under `m__init__` with `create=True` when
the segment is `__init__`), and the exclusions dictionary is filled —
keyed by both the object and the path for callables, by the path only for
non-callables — before the final patcher is entered. -/
def walkSegs (w : RealWorld) (pl : List Val) (exclObj : Val)
    (pathStr : IdentifierPath) (segsLen : Nat) :
    List (Nat × Ident) → Val → SessionS → Exclusions →
      SessionS × Exclusions × Except Err Unit
  | [], _, S, ex => (S, ex, .ok ())
  | (idx, seg) :: rest, parent, S, ex =>
      match getattrH S.heap parent seg with
      | none => (S, ex, .error .attributeError)
      | some current =>
          if pl.length > idx ∧ pl.getD idx tmVal = current then
            walkSegs w pl exclObj pathStr segsLen rest current S ex
          else if idx < segsLen - 1 then
            match applyPatcher S parent.toOId seg current false with
            | (S', .error e) => (S', ex, .error e)
            | (S', .ok _) =>
                walkSegs w pl exclObj pathStr segsLen rest current S' ex
          else
            let exS : Exclusions × SessionS :=
              if exclObj.isCallableV = true then
                (dictSet (dictSet ex (.objK exclObj)
                    (.callableE (getArgsAndCallable exclObj (sigOfVal w exclObj)
                      [parent] S.counter).1))
                  (.pathK pathStr)
                  (.callableE (getArgsAndCallable exclObj (sigOfVal w exclObj)
                    [parent] S.counter).1),
                 { S with counter := (getArgsAndCallable exclObj
                    (sigOfVal w exclObj) [parent] S.counter).2 })
              else
                (dictSet ex (.pathK pathStr) (.notCallableE exclObj), S)
            match (if seg = "__init__" then
                     applyPatcher exS.2 parent.toOId ("m" ++ seg) exclObj true
                   else
                     applyPatcher exS.2 parent.toOId seg exclObj false) with
            | (S', .error e) => (S', exS.1, .error e)
            | (S', .ok _) =>
                walkSegs w pl exclObj pathStr segsLen rest current S' exS.1

/-- The Phase 3 loop of `OnePatch.__enter__`: for each path in
`self._exclude_path_set | self._exclude_object_path_set`, resolve the
original object through the (already patched) testing module, raise
`ValueError` for a path with fewer than two segments, and — only when the
patching list is non-empty — run the per-segment walk from the mocked
module. -/
def processExclusions (w : RealWorld) (pl : List Val) (mm : Val) :
    List IdentifierPath → SessionS → Exclusions →
      SessionS × Exclusions × Except Err Unit
  | [], S, ex => (S, ex, .ok ())
  | path :: rest, S, ex =>
      match getattrByPath S.heap tmVal path with
      | none => (S, ex, .error .attributeError)
      | some exclObj =>
          if path.length < 2 then (S, ex, .error .valueError)
          else if pl.isEmpty then processExclusions w pl mm rest S ex
          else
            match walkSegs w pl exclObj path path.length path.enum mm S ex with
            | (S', ex', .error e) => (S', ex', .error e)
            | (S', ex', .ok _) => processExclusions w pl mm rest S' ex'

/-! ### `OnePatch.__enter__` assembled -/

/-- `OnePatchDTO`: the synthesized arguments, the callable to invoke, and
the exclusions dictionary. -/
structure OnePatchDTOm where
  args : ArgsList
  c : Val
  exclusions : Exclusions
deriving DecidableEq

/-- `func.__qualname__` as segments (empty when absent). -/
def qualnameSegs (v : Val) : IdentifierPath := (Val.qualnameOf v).getD []

/-- The include set after `OnePatch.__init__`: the class default `{'id'}`
united with the caller's set (one enumeration of that set, without
duplicates; Python set iteration order is unspecified). -/
def initIncludeSet (callerInclude : List IdentifierPath) :
    List IdentifierPath :=
  ["id"] :: (callerInclude.filter (fun p => !(p == ["id"]))).dedup

/-- `OnePatch.__init__` followed by `OnePatch.__enter__`: classify the
exclusions, create the autospec mock of the testing module on the throwaway
`FakeModule` holder, discover the patching list from the target's qualified
name, synthesize the arguments, blanket-patch the module identifiers, patch
the include set, and process the exclusion paths.  Returns the session
state (with every patcher applied so far, also on error) and the result. -/
def onePatchEnter (w : RealWorld) (funcV : Val)
    (callerInclude : List IdentifierPath) (excludeSels : List Sel)
    (c0 : Nat) : SessionS × Except Err OnePatchDTOm :=
  match initExclusions excludeSels with
  | .error e => (⟨[], initialHeap w c0, c0⟩, .error e)
  | .ok excl =>
      let includeSet := initIncludeSet callerInclude
      let S0 : SessionS := ⟨[], initialHeap w c0, c0 + 1⟩
      let mockedModule : Val := .mock (.autoSpec c0) []
      match applyPatcher S0 .fakeHolder "tm" mockedModule false with
      | (S1, .error e) => (S1, .error e)
      | (S1, .ok _) =>
          match getPatchingList S1.heap mockedModule
              (qualnameSegs funcV).dropLast with
          | none => (S1, .error .attributeError)
          | some pl =>
              let (dto, c2) := getArgsAndCallable funcV (sigOfVal w funcV)
                pl S1.counter
              let S2 := { S1 with counter := c2 }
              match patchModuleIdentifiers excl includeSet funcV pl
                  mockedModule (w.attrsOf 0) S2 with
              | (S3, .error e) => (S3, .error e)
              | (S3, .ok _) =>
                  match patchIncludeSet excl includeSet S3 with
                  | (S4, .error e) => (S4, .error e)
                  | (S4, .ok _) =>
                      let allPaths := (excl.pathSet ++ excl.objPaths).dedup
                      match processExclusions w pl mockedModule allPaths
                          S4 [] with
                      | (S5, _, .error e) => (S5, .error e)
                      | (S5, exs, .ok _) =>
                          (S5, .ok ⟨dto.args, dto.c, exs⟩)

/-! ### A concrete testing module used by the demonstrations -/

/-- Flags of a (non-exception) class with qualified name `q`. -/
def flC (q : IdentifierPath) : Flags := ⟨true, true, false, some q⟩

/-- Flags of a plain function with qualified name `q`. -/
def flF (q : IdentifierPath) : Flags := ⟨true, false, false, some q⟩

/-- A small testing module: a module-level constant, a class `FirstClass`
containing the unit under test, a module-level function, a second class
`OtherClass`, and an exception class `MyError`. -/
def demoWorld : RealWorld where
  attrsOf n :=
    if n = 0 then
      [("MODULE_CONST", .obj 10 {}),
       ("FirstClass", .obj 1 (flC ["FirstClass"])),
       ("failed_function", .obj 2 (flF ["failed_function"])),
       ("OtherClass", .obj 3 (flC ["OtherClass"])),
       ("MyError", .obj 4 ⟨true, true, true, some ["MyError"]⟩)]
    else if n = 1 then
      [("success_method", .obj 5 (flF ["FirstClass", "success_method"])),
       ("__init__", .obj 6 (flF ["FirstClass", "__init__"])),
       ("first_class_const", .obj 11 {})]
    else if n = 3 then
      [("g", .obj 7 (flF ["OtherClass", "g"])),
       ("nc_const", .obj 8 {})]
    else []
  sigOf n :=
    if n = 5 then
      ⟨false, ["self", "x"], .obj 5 (flF ["FirstClass", "success_method"])⟩
    else if n = 6 then
      ⟨false, ["self"], .obj 6 (flF ["FirstClass", "__init__"])⟩
    else if n = 7 then
      ⟨false, ["self", "y"], .obj 7 (flF ["OtherClass", "g"])⟩
    else if n = 2 then
      ⟨false, ["a", "b"], .obj 2 (flF ["failed_function"])⟩
    else ⟨false, [], tmVal⟩

/-- The unit under test of the demonstrations:
`tm.FirstClass.success_method`, an instance method accessed through its
class (an unbound plain function whose first parameter is `self`). -/
def demoFunc : Val := .obj 5 (flF ["FirstClass", "success_method"])

/-! ### Claim C4: argument synthesis binding -/

/-- `synthFreshArgs` registers exactly the parameter names, in order. -/
theorem synthFreshArgs_names (params : List Ident) :
    ∀ c0 : Nat, ((synthFreshArgs params c0).1).map Prod.fst = params := by
  induction params with
  | nil => intro c0; rfl
  | cons p rest ih => intro c0; simp [synthFreshArgs, ih]

/-- Every value produced by `synthFreshArgs` is a plain mock created at or
after the starting counter (a fresh `MagicMock()`). -/
theorem synthFreshArgs_mem (params : List Ident) :
    ∀ (c0 : Nat) (pv : Ident × Val), pv ∈ (synthFreshArgs params c0).1 →
      ∃ k, c0 ≤ k ∧ pv.2 = .mock (.plain k) [] := by
  induction params with
  | nil => intro c0 pv h; simp [synthFreshArgs] at h
  | cons p rest ih =>
    intro c0 pv h
    simp only [synthFreshArgs, List.mem_cons] at h
    rcases h with rfl | h
    · exact ⟨c0, le_refl c0, rfl⟩
    · obtain ⟨k, hk, hv⟩ := ih (c0 + 1) pv h
      exact ⟨k, by omega, hv⟩

/-- `synthPlainArgs` registers exactly the parameter names, in order. -/
theorem synthPlainArgs_names (lastM : Option Val) (params : List Ident) :
    ∀ c0 : Nat, ((synthPlainArgs lastM params c0).1).map Prod.fst = params := by
  induction params with
  | nil => intro c0; cases lastM <;> rfl
  | cons p rest ih =>
    intro c0
    cases lastM with
    | none => simp [synthPlainArgs, ih]
    | some m =>
      by_cases hp : p = "self"
      · simp [synthPlainArgs, hp, ih]
      · simp [synthPlainArgs, hp, ih]

/-- With a non-empty patching list, the plain branch binds every parameter
named `self` to the innermost chain mock and gives every other parameter a
fresh plain mock. -/
theorem synthPlainArgs_some_mem (m : Val) (params : List Ident) :
    ∀ (c0 : Nat) (pv : Ident × Val),
      pv ∈ (synthPlainArgs (some m) params c0).1 →
      (pv.1 = "self" → pv.2 = m) ∧
      (pv.1 ≠ "self" → ∃ k, c0 ≤ k ∧ pv.2 = .mock (.plain k) []) := by
  induction params with
  | nil => intro c0 pv h; simp [synthPlainArgs] at h
  | cons p rest ih =>
    intro c0 pv h
    by_cases hp : p = "self"
    · subst hp
      simp only [synthPlainArgs, if_true, eq_self_iff_true, List.mem_cons] at h
      rcases h with h | h
      · subst h
        exact ⟨fun _ => rfl, fun hne => absurd rfl hne⟩
      · exact ih c0 pv h
    · simp only [synthPlainArgs, if_neg hp, List.mem_cons] at h
      rcases h with h | h
      · subst h
        exact ⟨fun hs => absurd hs hp, fun _ => ⟨c0, le_refl c0, rfl⟩⟩
      · obtain ⟨h1, h2⟩ := ih (c0 + 1) pv h
        refine ⟨h1, fun hne => ?_⟩
        obtain ⟨k, hk, hv⟩ := h2 hne
        exact ⟨k, by omega, hv⟩

/-- With an empty patching list, every parameter gets a fresh plain mock. -/
theorem synthPlainArgs_none_mem (params : List Ident) :
    ∀ (c0 : Nat) (pv : Ident × Val),
      pv ∈ (synthPlainArgs none params c0).1 →
      ∃ k, c0 ≤ k ∧ pv.2 = .mock (.plain k) [] := by
  induction params with
  | nil => intro c0 pv h; simp [synthPlainArgs] at h
  | cons p rest ih =>
    intro c0 pv h
    simp only [synthPlainArgs, List.mem_cons] at h
    rcases h with rfl | h
    · exact ⟨c0, le_refl c0, rfl⟩
    · obtain ⟨k, hk, hv⟩ := ih (c0 + 1) pv h
      exact ⟨k, by omega, hv⟩

/-- Counterexample to C4 as stated.  `tm.FirstClass.success_method` reaches
argument synthesis as an *unbound* plain function (`inspect.ismethod` is
false), with parameters `(self, x)` and a non-empty stand-in chain.  The
claim requires every slot of such a callable to receive a freshly created
generic stand-in with no slot bound to an enclosing-scope stand-in; but the
code binds the parameter *named* `self` to the innermost chain stand-in
(`patching_list[-1]`), so slot 0 is the enclosing-scope stand-in, not a
fresh mock. -/
theorem unbound_self_binding_cex :
    isClassMethod (demoWorld.sigOf 5) = false ∧
    (getArgsAndCallable demoFunc (demoWorld.sigOf 5)
        [.mock (.autoSpec 0) ["FirstClass"]] 50).1.args =
      [("self", .mock (.autoSpec 0) ["FirstClass"]),
       ("x", .mock (.plain 50) [])] ∧
    ((getArgsAndCallable demoFunc (demoWorld.sigOf 5)
        [.mock (.autoSpec 0) ["FirstClass"]] 50).1.args.getD 0
        ("", tmVal)).2 = .mock (.autoSpec 0) ["FirstClass"] := by
  refine ⟨rfl, rfl, rfl⟩

/-- C4 amended.  If the callable is a bound method (`inspect.ismethod`),
the resolved callable is `func.__func__`, the first slot is registered
under the name `cls` and receives the innermost chain stand-in, and every
further slot receives a fresh generic stand-in.  Otherwise the resolved
callable is the function itself, slots follow the signature's parameter
names in order, and each slot receives a fresh generic stand-in — *except*
that a parameter literally named `self` receives the innermost chain
stand-in whenever the chain is non-empty.  With an empty chain (targets
declared at module level) every slot is fresh. -/
theorem getArgsAndCallable_binding (funcV : Val) (sig : FuncSig)
    (pl : List Val) (c0 : Nat) :
    (∀ m, pl.getLast? = some m → isClassMethod sig = true →
      (getArgsAndCallable funcV sig pl c0).1.c = sig.underlying ∧
      ((getArgsAndCallable funcV sig pl c0).1.args).head? = some ("cls", m) ∧
      ∀ pv ∈ ((getArgsAndCallable funcV sig pl c0).1.args).tail,
        ∃ k, c0 ≤ k ∧ pv.2 = .mock (.plain k) []) ∧
    (∀ m, pl.getLast? = some m → isClassMethod sig = false →
      (getArgsAndCallable funcV sig pl c0).1.c = funcV ∧
      ((getArgsAndCallable funcV sig pl c0).1.args).map Prod.fst = sig.params ∧
      ∀ pv ∈ (getArgsAndCallable funcV sig pl c0).1.args,
        (pv.1 = "self" → pv.2 = m) ∧
        (pv.1 ≠ "self" → ∃ k, c0 ≤ k ∧ pv.2 = .mock (.plain k) [])) ∧
    (pl = [] →
      ∀ pv ∈ (getArgsAndCallable funcV sig pl c0).1.args,
        ∃ k, c0 ≤ k ∧ pv.2 = .mock (.plain k) []) := by
  refine ⟨?_, ?_, ?_⟩
  · intro m hm hcm
    refine ⟨?_, ?_, ?_⟩
    · simp [getArgsAndCallable, hcm]
    · simp [getArgsAndCallable, hcm, hm]
    · intro pv hpv
      simp [getArgsAndCallable, hcm, hm] at hpv
      exact synthFreshArgs_mem sig.params c0 pv hpv
  · intro m hm hcm
    refine ⟨?_, ?_, ?_⟩
    · simp [getArgsAndCallable, hcm]
    · simp [getArgsAndCallable, hcm, hm, synthPlainArgs_names]
    · intro pv hpv
      simp only [getArgsAndCallable, hcm] at hpv
      rw [hm] at hpv
      exact synthPlainArgs_some_mem m sig.params c0 pv (by simpa using hpv)
  · intro hpl pv hpv
    subst hpl
    by_cases hcm : isClassMethod sig = true
    · simp [getArgsAndCallable, hcm] at hpv
      exact synthFreshArgs_mem sig.params c0 pv hpv
    · rw [Bool.not_eq_true] at hcm
      simp [getArgsAndCallable, hcm] at hpv
      exact synthPlainArgs_none_mem sig.params c0 pv hpv

/-- Witness for the amended C4 at the demonstration method. -/
theorem getArgsAndCallable_binding_witness :
    (getArgsAndCallable demoFunc (demoWorld.sigOf 5)
        [.mock (.autoSpec 0) ["FirstClass"]] 50).1.c = demoFunc :=
  ((getArgsAndCallable_binding demoFunc (demoWorld.sigOf 5)
      [.mock (.autoSpec 0) ["FirstClass"]] 50).2.1
    (.mock (.autoSpec 0) ["FirstClass"]) rfl rfl).1

/-! ### Blanket replacement lemmas (claims C7, C8) -/

/-- Every patcher recorded by `_patch_module_identifiers` either was
already recorded, or targets the testing module at one of the iterated
identifier names. -/
theorem patchModuleIdentifiers_patchers (excl : ExclParts)
    (inc : List IdentifierPath) (funcV : Val) (pl : List Val) (mm : Val) :
    ∀ (entries : List (Ident × Val)) (S : SessionS) (p : Patcher),
      p ∈ ((patchModuleIdentifiers excl inc funcV pl mm entries S).1).patchers →
      p ∈ S.patchers ∨ (p.owner = .real 0 ∧ p.attrName ∈ entries.map Prod.fst)
  | [], S, p => by
    intro hp
    simp only [patchModuleIdentifiers] at hp
    exact .inl hp
  | (ident, value) :: rest, S, p => by
    intro hp
    simp only [patchModuleIdentifiers] at hp
    split_ifs at hp with h1 h2 h3 h4 h5 h6
    · rcases patchModuleIdentifiers_patchers excl inc funcV pl mm rest S p hp
        with h | ⟨ho, ha⟩
      · exact .inl h
      · exact .inr ⟨ho, by simp [ha]⟩
    · rcases patchModuleIdentifiers_patchers excl inc funcV pl mm rest S p hp
        with h | ⟨ho, ha⟩
      · exact .inl h
      · exact .inr ⟨ho, by simp [ha]⟩
    · rcases patchModuleIdentifiers_patchers excl inc funcV pl mm rest S p hp
        with h | ⟨ho, ha⟩
      · exact .inl h
      · exact .inr ⟨ho, by simp [ha]⟩
    · rcases patchModuleIdentifiers_patchers excl inc funcV pl mm rest S p hp
        with h | ⟨ho, ha⟩
      · exact .inl h
      · exact .inr ⟨ho, by simp [ha]⟩
    · rcases patchModuleIdentifiers_patchers excl inc funcV pl mm rest S p hp
        with h | ⟨ho, ha⟩
      · exact .inl h
      · exact .inr ⟨ho, by simp [ha]⟩
    · rcases patchModuleIdentifiers_patchers excl inc funcV pl mm rest S p hp
        with h | ⟨ho, ha⟩
      · exact .inl h
      · exact .inr ⟨ho, by simp [ha]⟩
    · cases hg : getattrH S.heap mm ident with
      | none =>
        rw [hg] at hp
        dsimp only at hp
        exact .inl hp
      | some mval =>
        rw [hg] at hp
        dsimp only at hp
        by_cases hnone : S.heap (OId.real 0, ident) = none
        · rw [applyPatcher_fail S _ ident mval hnone] at hp
          exact .inl hp
        · rw [applyPatcher_spec S _ ident mval false
            (fun hc => hnone hc.1)] at hp
          dsimp only at hp
          rcases patchModuleIdentifiers_patchers excl inc funcV pl mm rest _ p hp
            with h | ⟨ho, ha⟩
          · dsimp only at h
            rcases List.mem_append.mp h with h' | h'
            · exact .inl h'
            · have hpq : p = ⟨.real 0, ident, mval, false,
                  S.heap (.real 0, ident), true⟩ := by simpa using h'
              rw [hpq]
              exact .inr ⟨rfl, by simp⟩
          · exact .inr ⟨ho, by simp [ha]⟩

/-- `_patch_module_identifiers` never patches an identifier that is in the
bare-name exclusion set (skip condition (a)). -/
theorem patchModuleIdentifiers_skips_name (excl : ExclParts)
    (inc : List IdentifierPath) (funcV : Val) (pl : List Val) (mm : Val)
    (a : Ident) (ha : a ∈ excl.identifierSet) :
    ∀ (entries : List (Ident × Val)) (S : SessionS) (p : Patcher),
      p ∈ ((patchModuleIdentifiers excl inc funcV pl mm entries S).1).patchers →
      p ∈ S.patchers ∨ p.attrName ≠ a
  | [], S, p => by
    intro hp
    simp only [patchModuleIdentifiers] at hp
    exact .inl hp
  | (ident, value) :: rest, S, p => by
    intro hp
    simp only [patchModuleIdentifiers] at hp
    split_ifs at hp with h1 h2 h3 h4 h5 h6
    · exact patchModuleIdentifiers_skips_name excl inc funcV pl mm a ha rest S p hp
    · exact patchModuleIdentifiers_skips_name excl inc funcV pl mm a ha rest S p hp
    · exact patchModuleIdentifiers_skips_name excl inc funcV pl mm a ha rest S p hp
    · exact patchModuleIdentifiers_skips_name excl inc funcV pl mm a ha rest S p hp
    · exact patchModuleIdentifiers_skips_name excl inc funcV pl mm a ha rest S p hp
    · exact patchModuleIdentifiers_skips_name excl inc funcV pl mm a ha rest S p hp
    · have hia : ident ≠ a := by
        intro hcontra
        exact h1 (.inl (hcontra ▸ ha))
      cases hg : getattrH S.heap mm ident with
      | none =>
        rw [hg] at hp
        dsimp only at hp
        exact .inl hp
      | some mval =>
        rw [hg] at hp
        dsimp only at hp
        by_cases hnone : S.heap (OId.real 0, ident) = none
        · rw [applyPatcher_fail S _ ident mval hnone] at hp
          exact .inl hp
        · rw [applyPatcher_spec S _ ident mval false
            (fun hc => hnone hc.1)] at hp
          dsimp only at hp
          rcases patchModuleIdentifiers_skips_name excl inc funcV pl mm a ha
              rest _ p hp with h | hne
          · dsimp only at h
            rcases List.mem_append.mp h with h' | h'
            · exact .inl h'
            · have hpq : p = ⟨.real 0, ident, mval, false,
                  S.heap (.real 0, ident), true⟩ := by simpa using h'
              rw [hpq]
              exact .inr hia
          · exact .inr hne

/-! ### Claim C8: exception-class exemption -/

/-- C8.  A direct member of the testing module whose value is a class
deriving from `Exception` is never blanket-replaced by
`_patch_module_identifiers` (skip condition (e)), regardless of the
exclusion configuration: no patcher recorded during blanket replacement
targets its name. -/
theorem exception_class_never_blanket_patched (excl : ExclParts)
    (inc : List IdentifierPath) (funcV : Val) (pl : List Val) (mm : Val) :
    ∀ (entries : List (Ident × Val)) (S : SessionS) (a : Ident) (v : Val),
      (entries.map Prod.fst).Nodup → (a, v) ∈ entries →
      v.isExceptionClass = true →
      ∀ p ∈ ((patchModuleIdentifiers excl inc funcV pl mm entries S).1).patchers,
        p ∈ S.patchers ∨ p.attrName ≠ a
  | [], _, a, v => by
    intro _ hmem _ _ _
    simp at hmem
  | (ident, value) :: rest, S, a, v => by
    intro hnd hmem hv p hp
    rcases List.mem_cons.mp hmem with hhead | htail
    · obtain ⟨ha, hval⟩ := Prod.mk.injEq .. ▸ hhead
      subst ha
      -- the entry for `a` itself is skipped (condition (e) holds, so the
      -- final branch is unreachable for it); any patcher comes from `rest`
      simp only [patchModuleIdentifiers] at hp
      have hanotin : a ∉ rest.map Prod.fst := by
        have := hnd
        simp only [List.map_cons, List.nodup_cons] at this
        exact this.1
      have hfromrest : ∀ (S' : SessionS),
          p ∈ ((patchModuleIdentifiers excl inc funcV pl mm rest S').1).patchers →
          p ∈ S'.patchers ∨ p.attrName ≠ a := by
        intro S' hp'
        rcases patchModuleIdentifiers_patchers excl inc funcV pl mm rest S' p hp'
          with h | ⟨_, hin⟩
        · exact .inl h
        · exact .inr (fun hcontra => hanotin (hcontra ▸ hin))
      split_ifs at hp with h1 h2 h3 h4 h5 h6
      · exact hfromrest S hp
      · exact hfromrest S hp
      · exact hfromrest S hp
      · exact hfromrest S hp
      · exact hfromrest S hp
      · exact hfromrest S hp
      · exact absurd (hval ▸ hv) h5
    · have hnd' : (rest.map Prod.fst).Nodup := by
        simp only [List.map_cons, List.nodup_cons] at hnd
        exact hnd.2
      have hamem : a ∈ rest.map Prod.fst :=
        List.mem_map.mpr ⟨(a, v), htail, rfl⟩
      have hia : ident ≠ a := by
        intro hcontra
        simp only [List.map_cons, List.nodup_cons] at hnd
        exact hnd.1 (hcontra ▸ hamem)
      simp only [patchModuleIdentifiers] at hp
      split_ifs at hp with h1 h2 h3 h4 h5 h6
      · exact exception_class_never_blanket_patched excl inc funcV pl mm rest S
          a v hnd' htail hv p hp
      · exact exception_class_never_blanket_patched excl inc funcV pl mm rest S
          a v hnd' htail hv p hp
      · exact exception_class_never_blanket_patched excl inc funcV pl mm rest S
          a v hnd' htail hv p hp
      · exact exception_class_never_blanket_patched excl inc funcV pl mm rest S
          a v hnd' htail hv p hp
      · exact exception_class_never_blanket_patched excl inc funcV pl mm rest S
          a v hnd' htail hv p hp
      · exact exception_class_never_blanket_patched excl inc funcV pl mm rest S
          a v hnd' htail hv p hp
      · cases hg : getattrH S.heap mm ident with
        | none =>
          rw [hg] at hp
          dsimp only at hp
          exact .inl hp
        | some mval =>
          rw [hg] at hp
          dsimp only at hp
          by_cases hnone : S.heap (OId.real 0, ident) = none
          · rw [applyPatcher_fail S _ ident mval hnone] at hp
            exact .inl hp
          · rw [applyPatcher_spec S _ ident mval false
              (fun hc => hnone hc.1)] at hp
            dsimp only at hp
            rcases exception_class_never_blanket_patched excl inc funcV pl mm
                rest _ a v hnd' htail hv p hp with h | hne
            · dsimp only at h
              rcases List.mem_append.mp h with h' | h'
              · exact .inl h'
              · have hpq : p = ⟨.real 0, ident, mval, false,
                    S.heap (.real 0, ident), true⟩ := by simpa using h'
                rw [hpq]
                exact .inr hia
            · exact .inr hne

/-- A concrete starting session for the standalone phase demonstrations. -/
def demoS0 : SessionS := ⟨[], initialHeap demoWorld 100, 101⟩

/-- The mocked module of the demonstrations (autospec root `100`). -/
def demoMM : Val := .mock (.autoSpec 100) []

/-- The patching list for the demonstration target
`FirstClass.success_method`. -/
def demoPl : List Val := [.mock (.autoSpec 100) ["FirstClass"]]

/-- The blanket-replacement patcher of `MODULE_CONST` in the
demonstration world. -/
def demoConstPatcher : Patcher :=
  ⟨.real 0, "MODULE_CONST", .mock (.autoSpec 100) ["MODULE_CONST"], false,
   some (.obj 10 {}), true⟩

/-- Witness for C8: in the demonstration world (with empty exclusions) the
exception class `MyError` is exempt; instantiated at the recorded
`MODULE_CONST` patcher. -/
theorem exception_class_never_blanket_patched_witness :
    demoConstPatcher ∈ demoS0.patchers ∨
      demoConstPatcher.attrName ≠ "MyError" :=
  exception_class_never_blanket_patched {} (initIncludeSet []) demoFunc
    demoPl demoMM (demoWorld.attrsOf 0) demoS0 "MyError"
    (.obj 4 ⟨true, true, true, some ["MyError"]⟩)
    (by decide) (by decide) (by decide) demoConstPatcher
    (by decide)

/-! ### Claim C7: exclusion precedence over inclusion -/

/-- The string-derived exclusion sets produced by `_init_exclusions`. -/
theorem initExclusions_strs (sels : List Sel) (excl : ExclParts)
    (hinit : initExclusions sels = .ok excl) :
    excl.identifierSet =
      ((strSelectors sels).filter (fun p => p.length < 2)).map pathHead ∧
    excl.pathSet = (strSelectors sels).filter (fun p => 2 ≤ p.length) := by
  unfold initExclusions at hinit
  cases hq : objPathsOf (objSelectors sels) with
  | error e => rw [hq] at hinit; exact absurd hinit (by simp)
  | ok qs =>
    rw [hq] at hinit
    dsimp only at hinit
    injection hinit with h
    rw [← h]
    exact ⟨rfl, rfl⟩

/-- A string selector of the caller's exclusion set is always covered by
the derived exclusion sets consulted by `_patch_include_set`. -/
theorem strSel_matchesInclude (sels : List Sel) (excl : ExclParts)
    (s : IdentifierPath) (hinit : initExclusions sels = .ok excl)
    (hs : Sel.str s ∈ sels) (hne : s ≠ []) :
    exclMatchesInclude excl s = true := by
  obtain ⟨hid, hpath⟩ := initExclusions_strs sels excl hinit
  have hstr : s ∈ strSelectors sels :=
    List.mem_filterMap.mpr ⟨Sel.str s, hs, rfl⟩
  by_cases hlen : 2 ≤ s.length
  · have hsp : s ∈ excl.pathSet := by
      rw [hpath]
      exact List.mem_filter.mpr ⟨hstr, by simpa using hlen⟩
    unfold exclMatchesInclude
    simp [hsp]
  · obtain ⟨a, rfl⟩ : ∃ a, s = [a] := by
      cases s with
      | nil => exact absurd rfl hne
      | cons a t =>
        cases t with
        | nil => exact ⟨a, rfl⟩
        | cons b t2 =>
          exfalso
          exact hlen (by simp)
    have ha : a ∈ excl.identifierSet := by
      rw [hid]
      exact List.mem_map.mpr ⟨[a], List.mem_filter.mpr ⟨hstr, by simp⟩, rfl⟩
    unfold exclMatchesInclude
    simp [ha]

/-- C7.  A selector that the caller placed in both the include set and the
exclude set is not replaced: `_patch_include_set` subtracts the exclusion
sets before installing anything (so the selector is dropped from the
processed include list), and — for a bare name — blanket replacement skips
the identifier as well (skip condition (a)).  Exclusion takes precedence
over inclusion. -/
theorem exclusion_precedence (sels : List Sel) (excl : ExclParts)
    (inc : List IdentifierPath) (funcV : Val) (pl : List Val) (mm : Val)
    (entries : List (Ident × Val)) (S : SessionS) (s : IdentifierPath)
    (hinit : initExclusions sels = .ok excl) (hs : Sel.str s ∈ sels)
    (hne : s ≠ []) (_hinc : s ∈ inc) :
    s ∉ includeMinusExcl excl inc ∧
    (∀ a, s = [a] →
      ∀ p ∈ ((patchModuleIdentifiers excl inc funcV pl mm entries S).1).patchers,
        p ∈ S.patchers ∨ p.attrName ≠ a) := by
  have hmatch := strSel_matchesInclude sels excl s hinit hs hne
  constructor
  · intro hmem
    have hpred := (List.mem_filter.mp hmem).2
    simp [hmatch] at hpred
  · intro a hsa p hp
    subst hsa
    obtain ⟨hid, _⟩ := initExclusions_strs sels excl hinit
    have hstr : [a] ∈ strSelectors sels :=
      List.mem_filterMap.mpr ⟨Sel.str [a], hs, rfl⟩
    have ha : a ∈ excl.identifierSet := by
      rw [hid]
      exact List.mem_map.mpr ⟨[a], List.mem_filter.mpr ⟨hstr, by simp⟩, rfl⟩
    exact patchModuleIdentifiers_skips_name excl inc funcV pl mm a ha
      entries S p hp

/-- The exclusion selector list of the C7 demonstration. -/
def demoSelsC7 : List Sel := [Sel.str ["failed_function"]]

/-- The derived exclusion sets of `demoSelsC7`. -/
def demoExclC7 : ExclParts := ⟨["failed_function"], [], [], [], []⟩

/-- Witness for C7: `failed_function` in both sets is dropped from the
processed include list. -/
theorem exclusion_precedence_witness :
    ["failed_function"] ∉ includeMinusExcl demoExclC7 [["failed_function"]] :=
  (exclusion_precedence demoSelsC7 demoExclC7 [["failed_function"]] demoFunc
    demoPl demoMM (demoWorld.attrsOf 0) demoS0 ["failed_function"] rfl
    (List.mem_singleton.mpr rfl) (by simp)
    (List.mem_singleton.mpr rfl)).1

/-! ### Claim C9: the default `id` include -/

/-- `_patch_include_set` only ever appends patchers. -/
theorem patchIncludeGo_mono : ∀ (sels : List IdentifierPath) (S : SessionS),
    ∃ tail, ((patchIncludeGo sels S).1).patchers = S.patchers ++ tail
  | [], S => ⟨[], by simp [patchIncludeGo]⟩
  | sel :: rest, S => by
    simp only [patchIncludeGo]
    cases hg : getattrByPath S.heap tmVal sel.dropLast with
    | none => exact ⟨[], by simp⟩
    | some parent =>
      dsimp only
      split_ifs with hmock
      · exact patchIncludeGo_mono rest S
      · rw [applyPatcher_spec _ _ _ _ true (fun hc => by simp at hc)]
        dsimp only
        obtain ⟨tail', ht⟩ := patchIncludeGo_mono rest
          ({ patchers := S.patchers ++
              [⟨parent.toOId, sel.getLastD "", .mock (.plain S.counter) [],
                true, S.heap (parent.toOId, sel.getLastD ""), true⟩],
             heap := Function.update S.heap (parent.toOId, sel.getLastD "")
               (some (.mock (.plain S.counter) [])),
             counter := S.counter + 1 })
        refine ⟨⟨parent.toOId, sel.getLastD "", .mock (.plain S.counter) [],
          true, S.heap (parent.toOId, sel.getLastD ""), true⟩ :: tail', ?_⟩
        rw [ht]
        simp

/-- C9.  The include set contains `id` by default (the class attribute
`_include_set = {'id'}` united with any caller-supplied set), so — unless
`id` is covered by an exclusion set, and unless the current value is
already a mock — `_patch_include_set` installs a fresh default mock at the
testing module's `id` attribute with `create=True` (the attribute is
created even when the module does not define `id`). -/
theorem default_id_mock_installed (callerInclude : List IdentifierPath)
    (excl : ExclParts) (S : SessionS)
    (hnx : exclMatchesInclude excl ["id"] = false)
    (hnm : (match S.heap (tmVal.toOId, "id") with
            | some v => v.isMockV
            | none => false) = false) :
    ["id"] ∈ initIncludeSet callerInclude ∧
    ∃ tail, ((patchIncludeSet excl (initIncludeSet callerInclude) S).1).patchers
      = S.patchers ++ ⟨tmVal.toOId, "id", .mock (.plain S.counter) [], true,
          S.heap (tmVal.toOId, "id"), true⟩ :: tail := by
  constructor
  · simp [initIncludeSet]
  · unfold patchIncludeSet
    have hfil : includeMinusExcl excl (initIncludeSet callerInclude) =
        ["id"] :: includeMinusExcl excl
          ((callerInclude.filter (fun p => !(p == ["id"]))).dedup) := by
      unfold includeMinusExcl initIncludeSet
      rw [List.filter_cons_of_pos (by simp [hnx])]
    rw [hfil]
    simp only [patchIncludeGo]
    have hwalk : getattrByPath S.heap tmVal (List.dropLast ["id"]) =
        some tmVal := rfl
    rw [hwalk]
    dsimp only
    rw [if_neg (by simp only [List.getLastD]; simp [hnm])]
    rw [applyPatcher_spec _ _ _ _ true (fun hc => by simp at hc)]
    dsimp only
    obtain ⟨tail', ht⟩ := patchIncludeGo_mono
      (includeMinusExcl excl ((callerInclude.filter (fun p => !(p == ["id"]))).dedup))
      ({ patchers := S.patchers ++
          [⟨tmVal.toOId, List.getLastD ["id"] "", .mock (.plain S.counter) [],
            true, S.heap (tmVal.toOId, List.getLastD ["id"] ""), true⟩],
         heap := Function.update S.heap (tmVal.toOId, List.getLastD ["id"] "")
           (some (.mock (.plain S.counter) [])),
         counter := S.counter + 1 })
    refine ⟨tail', ?_⟩
    rw [ht]
    simp

/-- Witness for C9 with no caller include set, empty exclusions and the
demonstration session. -/
theorem default_id_mock_installed_witness :
    ["id"] ∈ initIncludeSet [] :=
  (default_id_mock_installed [] {} demoS0 (by decide) (by decide)).1

/-! ### Claim C3: short exclusion paths -/

/-- Whether scope entry succeeded. -/
def isOkEnter (r : Except Err OnePatchDTOm) : Bool :=
  match r with
  | .ok _ => true
  | .error _ => false

/-- Counterexample to C3 as stated.  Excluding the module-level function
`failed_function` *by object reference* puts its one-segment `__qualname__`
into the exclusion paths; scope entry then raises `ValueError` — but only
in the Phase 3 loop, *after* substitutions were applied: at the moment of
the error the session holds 4 patchers, 3 of them on the testing module
itself (blanket replacement of `MODULE_CONST` and `OtherClass`, plus the
`id` include).  Moreover a bare name given as a *string* selector never
raises at all (it is classified as an identifier exclusion), so the claim's
"bare name presented as a path" cannot produce the error before any
substitution. -/
theorem shortpath_after_subst_cex :
    (onePatchEnter demoWorld demoFunc []
        [Sel.objRef (.obj 2 (flF ["failed_function"]))] 100).2 =
      .error .valueError ∧
    (onePatchEnter demoWorld demoFunc []
        [Sel.objRef (.obj 2 (flF ["failed_function"]))] 100).1.patchers.length
      = 4 ∧
    ((onePatchEnter demoWorld demoFunc []
        [Sel.objRef (.obj 2 (flF ["failed_function"]))] 100).1.patchers.filter
        (fun p => p.owner == .real 0)).length = 3 ∧
    isOkEnter (onePatchEnter demoWorld demoFunc []
        [Sel.str ["failed_function"]] 100).2 = true := by
  refine ⟨rfl, rfl, rfl, rfl⟩

/-- C3 amended.  An exclusion path with fewer than two segments (which can
only arise from an excluded *object* whose `__qualname__` is a single
name, since string selectors without a separator are classified as bare
identifiers) makes the Phase 3 loop raise `ValueError` as soon as the path
is processed; the loop itself changes nothing before raising, so the
substitutions already applied by blanket replacement and by the include
set remain in place (to be undone by scope exit). -/
theorem shortpath_valueError_in_phase3 (w : RealWorld) (pl : List Val)
    (mm : Val) (S : SessionS) (ex : Exclusions) (p : IdentifierPath)
    (rest : List IdentifierPath) (v : Val)
    (hres : getattrByPath S.heap tmVal p = some v)
    (hshort : p.length < 2) :
    processExclusions w pl mm (p :: rest) S ex = (S, ex, .error .valueError) := by
  simp only [processExclusions]
  rw [hres]
  dsimp only
  rw [if_pos hshort]

/-- Witness for the amended C3: the one-segment qualname path of
`failed_function` raises in the Phase 3 loop without touching the
session. -/
theorem shortpath_valueError_in_phase3_witness :
    processExclusions demoWorld demoPl demoMM [["failed_function"]] demoS0 []
      = (demoS0, [], .error .valueError) :=
  shortpath_valueError_in_phase3 demoWorld demoPl demoMM demoS0 []
    ["failed_function"] [] (.obj 2 (flF ["failed_function"])) rfl
    (by decide)

/-! ### Claim C10: module-level targets skip the exclusion walk -/

/-- With an empty patching list the Phase 3 loop still validates every
path but re-installs nothing and records no exclusion entry. -/
theorem processExclusions_empty_pl (w : RealWorld) (mm : Val) :
    ∀ (paths : List IdentifierPath) (S : SessionS) (ex : Exclusions),
      (∀ q ∈ paths, (getattrByPath S.heap tmVal q).isSome ∧ 2 ≤ q.length) →
      processExclusions w [] mm paths S ex = (S, ex, .ok ())
  | [], S, ex => by intro _; rfl
  | q :: rest, S, ex => by
    intro hall
    obtain ⟨hres, hlen⟩ := hall q (List.mem_cons_self q rest)
    obtain ⟨v, hv⟩ := Option.isSome_iff_exists.mp hres
    simp only [processExclusions]
    rw [hv]
    dsimp only
    rw [if_neg (by omega),
      if_pos (show (List.isEmpty ([] : List Val)) = true from rfl)]
    exact processExclusions_empty_pl w mm rest S ex
      (fun q' hq' => hall q' (List.mem_cons_of_mem _ hq'))

/-- C10.  For a target declared at module level the qualified name has a
single segment, so `get_patching_list` walks `[:-1] = []` and returns the
empty chain; with the empty chain the whole exclusion re-installation walk
is skipped — the session state is untouched and the returned exclusion
table is empty — although the fewer-than-two-segments validation still
runs for every path (a short path still raises `ValueError`). -/
theorem moduleLevel_target_skips_walk (w : RealWorld) (mm : Val) (h : Heap)
    (cur : Val) (s : Ident) (S : SessionS) (paths : List IdentifierPath)
    (p : IdentifierPath) (rest : List IdentifierPath) :
    getPatchingList h cur ([s].dropLast) = some [] ∧
    ((∀ q ∈ paths, (getattrByPath S.heap tmVal q).isSome ∧ 2 ≤ q.length) →
      processExclusions w [] mm paths S [] = (S, [], .ok ())) ∧
    (∀ v, getattrByPath S.heap tmVal p = some v → p.length < 2 →
      processExclusions w [] mm (p :: rest) S [] =
        (S, [], .error .valueError)) := by
  refine ⟨rfl, fun hall => processExclusions_empty_pl w mm paths S [] hall,
    fun v hres hshort => ?_⟩
  simp only [processExclusions]
  rw [hres]
  dsimp only
  rw [if_pos hshort]

/-- Witness for C10: a module-level target with one well-formed exclusion
path leaves the session untouched and the table empty. -/
theorem moduleLevel_target_skips_walk_witness :
    processExclusions demoWorld [] demoMM [["OtherClass", "g"]] demoS0 [] =
      (demoS0, [], .ok ()) :=
  (moduleLevel_target_skips_walk demoWorld demoMM demoS0.heap demoMM
    "failed_function" demoS0 [["OtherClass", "g"]] ["failed_function"]
    []).2.1 (by decide)

/-! ### Claim C6: exclusion-table dual keying -/

/-- C6.  When the final segment of an excluded path is reached off the
target chain, the entry recorded for a *callable* original object is one
`CallableDTO` stored under *both* the object key and the path key (the
identical entry), while a *non-callable* original is stored as a read-only
wrapper under the path key only — the object key is absent. -/
theorem exclusion_table_dual_keying (w : RealWorld) (pl : List Val)
    (exclObj : Val) (pstr : IdentifierPath) (segsLen idx : Nat) (seg : Ident)
    (parent : Val) (S : SessionS) (current : Val)
    (hcur : getattrH S.heap parent seg = some current)
    (hoff : ¬(pl.length > idx ∧ pl.getD idx tmVal = current))
    (hfin : ¬(idx < segsLen - 1)) :
    (exclObj.isCallableV = true →
      ∃ dto : CallableDTOm,
        (walkSegs w pl exclObj pstr segsLen [(idx, seg)] parent S []).2.1 =
          [(.objK exclObj, .callableE dto), (.pathK pstr, .callableE dto)] ∧
        dictGet (walkSegs w pl exclObj pstr segsLen [(idx, seg)] parent S []).2.1
          (.objK exclObj) = some (.callableE dto) ∧
        dictGet (walkSegs w pl exclObj pstr segsLen [(idx, seg)] parent S []).2.1
          (.pathK pstr) = some (.callableE dto)) ∧
    (exclObj.isCallableV = false →
      (walkSegs w pl exclObj pstr segsLen [(idx, seg)] parent S []).2.1 =
        [(.pathK pstr, .notCallableE exclObj)] ∧
      dictGet (walkSegs w pl exclObj pstr segsLen [(idx, seg)] parent S []).2.1
        (.objK exclObj) = none ∧
      dictGet (walkSegs w pl exclObj pstr segsLen [(idx, seg)] parent S []).2.1
        (.pathK pstr) = some (.notCallableE exclObj)) := by
  have hne1 : (EKey.pathK pstr == EKey.objK exclObj) = false := by simp
  have hne2 : (EKey.objK exclObj == EKey.pathK pstr) = false := by simp
  constructor
  · intro hcall
    refine ⟨(getArgsAndCallable exclObj (sigOfVal w exclObj) [parent]
      S.counter).1, ?_, ?_, ?_⟩ <;>
    · simp only [walkSegs]
      rw [hcur]
      dsimp only
      rw [if_neg hoff, if_neg hfin]
      simp only [hcall, if_true, dictSet, List.nil_append]
      rcases happ : (if seg = "__init__" then
          applyPatcher { S with counter := (getArgsAndCallable exclObj
            (sigOfVal w exclObj) [parent] S.counter).2 }
            parent.toOId ("m" ++ seg) exclObj true
        else
          applyPatcher { S with counter := (getArgsAndCallable exclObj
            (sigOfVal w exclObj) [parent] S.counter).2 }
            parent.toOId seg exclObj false) with ⟨S', r⟩
      cases r <;> simp [walkSegs, dictGet, hne1, hne2]
  · intro hncall
    refine ⟨?_, ?_, ?_⟩ <;>
    · simp only [walkSegs]
      rw [hcur]
      dsimp only
      rw [if_neg hoff, if_neg hfin]
      simp only [hncall, Bool.false_eq_true, if_false, dictSet,
        List.nil_append]
      rcases happ : (if seg = "__init__" then
          applyPatcher S parent.toOId ("m" ++ seg) exclObj true
        else
          applyPatcher S parent.toOId seg exclObj false) with ⟨S', r⟩
      cases r <;> simp [walkSegs, dictGet, hne1, hne2]

/-- The excluded nested method of the C6 demonstration
(`tm.OtherClass.g`). -/
def demoG : Val := .obj 7 (flF ["OtherClass", "g"])

/-- Witness for C6: at the final walk step for `OtherClass.g`, the object
key and the path key retrieve the identical entry. -/
theorem exclusion_table_dual_keying_witness :
    dictGet (walkSegs demoWorld demoPl demoG ["OtherClass", "g"] 2 [(1, "g")]
        (.mock (.autoSpec 100) ["OtherClass"]) demoS0 []).2.1
      (.objK demoG) =
    dictGet (walkSegs demoWorld demoPl demoG ["OtherClass", "g"] 2 [(1, "g")]
        (.mock (.autoSpec 100) ["OtherClass"]) demoS0 []).2.1
      (.pathK ["OtherClass", "g"]) := by
  obtain ⟨dto, _, h2, h3⟩ :=
    (exclusion_table_dual_keying demoWorld demoPl demoG ["OtherClass", "g"]
      2 1 "g" (.mock (.autoSpec 100) ["OtherClass"]) demoS0
      (.mock (.autoSpec 100) ["OtherClass", "g"]) rfl (by decide)
      (by decide)).1 rfl
  rw [h2, h3]

/-! ### Claim C5: what Phase 3 re-installs at non-final segments -/

/-- Counterexample to C5 as stated.  Target `FirstClass.success_method`,
exclusion `"OtherClass.g"`: at the non-final off-chain segment
`OtherClass` the engine records a patcher on the *mocked module* whose
installed value is the existing autospec *stand-in* child (a mock), not
the original real `OtherClass` object — and the next patcher's owner is
that stand-in, so the walk descends through the stand-in rather than
through the original object. -/
theorem phase3_standin_not_original_cex :
    ((onePatchEnter demoWorld demoFunc [] [Sel.str ["OtherClass", "g"]]
        100).1.patchers.getD 4 demoConstPatcher).owner =
      .mockNode (.autoSpec 100) [] ∧
    ((onePatchEnter demoWorld demoFunc [] [Sel.str ["OtherClass", "g"]]
        100).1.patchers.getD 4 demoConstPatcher).attrName = "OtherClass" ∧
    ((onePatchEnter demoWorld demoFunc [] [Sel.str ["OtherClass", "g"]]
        100).1.patchers.getD 4 demoConstPatcher).newVal =
      .mock (.autoSpec 100) ["OtherClass"] ∧
    ((onePatchEnter demoWorld demoFunc [] [Sel.str ["OtherClass", "g"]]
        100).1.patchers.getD 4 demoConstPatcher).newVal.isMockV = true ∧
    ((onePatchEnter demoWorld demoFunc [] [Sel.str ["OtherClass", "g"]]
        100).1.patchers.getD 4 demoConstPatcher).newVal ≠
      .obj 3 (flC ["OtherClass"]) ∧
    ((onePatchEnter demoWorld demoFunc [] [Sel.str ["OtherClass", "g"]]
        100).1.patchers.getD 5 demoConstPatcher).owner =
      .mockNode (.autoSpec 100) ["OtherClass"] := by
  refine ⟨rfl, rfl, rfl, rfl, by decide, rfl⟩

/-- C5 amended.  At a non-final segment of an excluded path that is not on
the target chain, the engine re-installs the attribute's *current* value
on the stand-in parent (`patch.object(parent_object, exclude_identifier,
current_object)` where `current_object = getattr(parent_object,
exclude_identifier)`) — a value-preserving patch of the stand-in child,
not the original real object — and the walk continues descending through
that current value, i.e. through the stand-in. -/
theorem phase3_nonfinal_reinstalls_current (w : RealWorld) (pl : List Val)
    (exclObj : Val) (pstr : IdentifierPath) (segsLen idx : Nat) (seg : Ident)
    (rest : List (Nat × Ident)) (parent : Val) (S : SessionS)
    (ex : Exclusions) (current : Val)
    (hcur : getattrH S.heap parent seg = some current)
    (hoff : ¬(pl.length > idx ∧ pl.getD idx tmVal = current))
    (hnf : idx < segsLen - 1) :
    walkSegs w pl exclObj pstr segsLen ((idx, seg) :: rest) parent S ex =
      walkSegs w pl exclObj pstr segsLen rest current
        { patchers := S.patchers ++
            [⟨parent.toOId, seg, current, false, some current, true⟩],
          heap := S.heap, counter := S.counter } ex := by
  have hcur' : S.heap (parent.toOId, seg) = some current := hcur
  have hupd : Function.update S.heap (parent.toOId, seg) (some current) =
      S.heap := by
    rw [← hcur', Function.update_eq_self]
  simp only [walkSegs]
  rw [hcur]
  dsimp only
  rw [if_neg hoff, if_pos hnf]
  rw [applyPatcher_spec S parent.toOId seg current false
    (fun hc => by rw [hcur'] at hc; exact Option.noConfusion hc.1)]
  dsimp only
  rw [hcur', hupd]

/-- Witness for the amended C5 at the `OtherClass` segment of the
demonstration run. -/
theorem phase3_nonfinal_reinstalls_current_witness :
    walkSegs demoWorld demoPl demoG ["OtherClass", "g"] 2
        [(0, "OtherClass"), (1, "g")] demoMM demoS0 [] =
      walkSegs demoWorld demoPl demoG ["OtherClass", "g"] 2 [(1, "g")]
        (.mock (.autoSpec 100) ["OtherClass"])
        { patchers := demoS0.patchers ++
            [⟨demoMM.toOId, "OtherClass",
              .mock (.autoSpec 100) ["OtherClass"], false,
              some (.mock (.autoSpec 100) ["OtherClass"]), true⟩],
          heap := demoS0.heap, counter := demoS0.counter } [] :=
  phase3_nonfinal_reinstalls_current demoWorld demoPl demoG
    ["OtherClass", "g"] 2 0 "OtherClass" [(1, "g")] demoMM demoS0 []
    (.mock (.autoSpec 100) ["OtherClass"]) rfl (by decide) (by decide)

end OnePatchModel
